import Mathlib

/-!
Shallow embedding of the Spreet command-line configuration layer
(src/bin/spreet/cli.rs).

The source file declares a clap-derive argument schema (struct Cli) with

  * two positional arguments: input (validated to be an existing
    directory) and output;
  * an argument group "pixel_ratio" containing ratio and retina,
    making them mutually exclusive;
  * an argument group "optlevel" containing oxipng and zopfli,
    making them mutually exclusive;
  * include_center, which requires crop;
  * value validators is_positive (ratio, zopfli), is_non_negative
    (spacing) and is_max_6 (oxipng), each parsing the raw string as
    a u8 first;
  * defaults ratio = 1 and spacing = 0, applied only when the option
    is not supplied explicitly (defaults do not count as occurrences
    for group or dependency checks).

The embedding below models the argument-parsing engine the schema is
interpreted by: tokens are consumed left to right, each supplied value
runs through its validator immediately (so an invalid value aborts the
parse before any cross-argument check), and after all tokens are
consumed the cross-argument checks run in order: group conflicts first,
then required arguments (the two positionals, plus crop when
include_center demands it), after which defaults are applied and the
final configuration is built.  The automatically generated help and
version flags are not modelled; they bypass validation entirely.
Machine integers (u8) are modelled as Nat with an explicit 255 bound
checked where the source parses, and the filesystem touched by the
is_dir validator is an explicit parameter mapping each path to what it
names at validation time.
-/

/-- Failure taxonomy of the per-value validators: a string that does not
parse as a u8 at all (empty, non-numeric, or over 255), a parsed value
violating its declared bound, and a path that is not an existing
directory. -/
inductive ValErr
  | parseError
  | rangeError
  | pathError
deriving DecidableEq, Repr

/-- What a path names on the filesystem at validation time. -/
inductive NodeKind
  | dir
  | file
  | absent
deriving DecidableEq, Repr

/-- The filesystem as seen by the directory-existence validator. -/
structure Fs where
  kind : String → NodeKind

/-- Value of a decimal digit character, none for a non-digit. -/
def digitVal (c : Char) : Option Nat :=
  if c.isDigit then some (c.toNat - '0'.toNat) else none

/-- Accumulate the value of a run of decimal digits; none if any
character is not a decimal digit. -/
def parseDigits : List Char → Nat → Option Nat
  | [], acc => some acc
  | c :: cs, acc =>
    match digitVal c with
    | none => none
    | some d => parseDigits cs (acc * 10 + d)

/-- Digit run parsed as a u8: the value must fit in eight bits.  The
source checks overflow step by step with checked arithmetic; for a pure
digit run that is equivalent to parsing the full value and comparing it
with 255, since every prefix of a digit run has a value no larger than
the whole run. -/
def u8_digits (cs : List Char) : Option Nat :=
  match parseDigits cs 0 with
  | none => none
  | some n => if n ≤ 255 then some n else none

/-- Character-list form of u8::from_str: an optional leading plus sign
followed by a non-empty run of decimal digits whose value fits in eight
bits.  A leading minus sign is rejected for an unsigned target exactly
like any other non-digit. -/
def u8_chars : List Char → Option Nat
  | [] => none
  | c :: cs =>
    if c = '+' then (if cs.isEmpty then none else u8_digits cs)
    else u8_digits (c :: cs)

/-- u8::from_str on a string. -/
def u8_from_str (s : String) : Option Nat :=
  u8_chars s.toList

/-- Validator ensuring that a string names an existing directory
(fn is_dir in cli.rs), with the filesystem explicit. -/
def is_dir (fs : Fs) (p : String) : Except ValErr String :=
  if fs.kind p = NodeKind.dir then Except.ok p
  else Except.error ValErr.pathError

/-- Validator ensuring that an unsigned integer parsed from a string is
greater than zero (fn is_positive in cli.rs). -/
def is_positive (s : String) : Except ValErr Nat :=
  match u8_from_str s with
  | none => Except.error ValErr.parseError
  | some n => if n > 0 then Except.ok n else Except.error ValErr.rangeError

/-- Validator ensuring that an unsigned integer parses from the string;
u8 is inherently non-negative, so only parsing is validated
(fn is_non_negative in cli.rs). -/
def is_non_negative (s : String) : Except ValErr Nat :=
  match u8_from_str s with
  | none => Except.error ValErr.parseError
  | some n => Except.ok n

/-- Validator ensuring that an unsigned integer parsed from a string is
no more than 6 (fn is_max_6 in cli.rs). -/
def is_max_6 (s : String) : Except ValErr Nat :=
  match u8_from_str s with
  | none => Except.error ValErr.parseError
  | some n => if n ≤ 6 then Except.ok n else Except.error ValErr.rangeError

/-- The parsed configuration, mirroring struct Cli field for field.
u8 fields are Nat values bounded by the parsing they went through. -/
structure Cli where
  input : String
  output : String
  ratio : Nat
  retina : Bool
  unique : Bool
  recursive : Bool
  crop : Bool
  include_center : Bool
  spacing : Nat
  oxipng : Option Nat
  zopfli : Option Nat
  minify_index_file : Bool
  simple_index_file : Bool
  sdf : Bool
deriving DecidableEq, Repr

/-- Identifiers of the named arguments of the schema. -/
inductive ArgId
  | ratio
  | retina
  | unique
  | recursive
  | crop
  | include_center
  | spacing
  | oxipng
  | zopfli
  | minify_index_file
  | simple_index_file
  | sdf
deriving DecidableEq, Repr

/-- Raw matches collected while consuming the token list: an option is
recorded only when supplied explicitly, so defaults never participate
in group-conflict or dependency checks.  The order field records the
first-occurrence order of the arguments that belong to some
mutual-exclusion group (ratio, retina, oxipng, zopfli): the matcher
keeps every matched argument in command-line order and the conflict
walk visits them in that order, but arguments outside the two groups
can never be reported by it, so only the group members' positions are
observable and recorded. -/
structure Matches where
  input : Option String
  output : Option String
  ratio : Option Nat
  retina : Bool
  unique : Bool
  recursive : Bool
  crop : Bool
  include_center : Bool
  spacing : Option Nat
  oxipng : Option Nat
  zopfli : Option Nat
  minify_index_file : Bool
  simple_index_file : Bool
  sdf : Bool
  order : List ArgId
deriving DecidableEq, Repr

/-- No option supplied yet. -/
def emptyMatches : Matches :=
  { input := none, output := none, ratio := none, retina := false,
    unique := false, recursive := false, crop := false,
    include_center := false, spacing := none, oxipng := none,
    zopfli := none, minify_index_file := false,
    simple_index_file := false, sdf := false, order := [] }

/-- Display name of an argument, used in diagnostics. -/
def longName : ArgId → String
  | ArgId.ratio => "--ratio"
  | ArgId.retina => "--retina"
  | ArgId.unique => "--unique"
  | ArgId.recursive => "--recursive"
  | ArgId.crop => "--crop"
  | ArgId.include_center => "--include-center"
  | ArgId.spacing => "--spacing"
  | ArgId.oxipng => "--oxipng"
  | ArgId.zopfli => "--zopfli"
  | ArgId.minify_index_file => "--minify-index-file"
  | ArgId.simple_index_file => "--simple-index-file"
  | ArgId.sdf => "--sdf"

/-- Whether the argument takes a value (as opposed to being a flag). -/
def isValueArg : ArgId → Bool
  | ArgId.ratio => true
  | ArgId.spacing => true
  | ArgId.oxipng => true
  | ArgId.zopfli => true
  | _ => false

/-- The validator attached to each value-taking argument in the schema.
Flags never reach this function. -/
def runValidator : ArgId → String → Except ValErr Nat
  | ArgId.ratio, s => is_positive s
  | ArgId.spacing, s => is_non_negative s
  | ArgId.oxipng, s => is_max_6 s
  | ArgId.zopfli, s => is_positive s
  | _, _ => Except.error ValErr.parseError

/-- Long and short command-line names of the schema arguments.  The
derive gives ratio the short name -r and minify_index_file the short
name -m; field names become kebab-case long names. -/
def lookupName (name : String) : Option ArgId :=
  if name = "-r" ∨ name = "--ratio" then some ArgId.ratio
  else if name = "--retina" then some ArgId.retina
  else if name = "--unique" then some ArgId.unique
  else if name = "--recursive" then some ArgId.recursive
  else if name = "--crop" then some ArgId.crop
  else if name = "--include-center" then some ArgId.include_center
  else if name = "--spacing" then some ArgId.spacing
  else if name = "--oxipng" then some ArgId.oxipng
  else if name = "--zopfli" then some ArgId.zopfli
  else if name = "-m" ∨ name = "--minify-index-file" then some ArgId.minify_index_file
  else if name = "--simple-index-file" then some ArgId.simple_index_file
  else if name = "--sdf" then some ArgId.sdf
  else none

/-- Record the value of a value-taking argument; none when it was
already supplied (a repeated option is an error).  Members of a
mutual-exclusion group are appended to the occurrence order. -/
def setValArg (m : Matches) (a : ArgId) (n : Nat) : Option Matches :=
  match a with
  | ArgId.ratio =>
    if m.ratio.isSome then none
    else some { m with ratio := some n, order := m.order ++ [ArgId.ratio] }
  | ArgId.spacing => if m.spacing.isSome then none else some { m with spacing := some n }
  | ArgId.oxipng =>
    if m.oxipng.isSome then none
    else some { m with oxipng := some n, order := m.order ++ [ArgId.oxipng] }
  | ArgId.zopfli =>
    if m.zopfli.isSome then none
    else some { m with zopfli := some n, order := m.order ++ [ArgId.zopfli] }
  | _ => none

/-- Record a flag occurrence; none when it was already supplied.
Retina is a member of the pixel_ratio group, so it is appended to the
occurrence order. -/
def setFlagArg (m : Matches) : ArgId → Option Matches
  | ArgId.retina =>
    if m.retina then none
    else some { m with retina := true, order := m.order ++ [ArgId.retina] }
  | ArgId.unique => if m.unique then none else some { m with unique := true }
  | ArgId.recursive => if m.recursive then none else some { m with recursive := true }
  | ArgId.crop => if m.crop then none else some { m with crop := true }
  | ArgId.include_center => if m.include_center then none else some { m with include_center := true }
  | ArgId.minify_index_file => if m.minify_index_file then none else some { m with minify_index_file := true }
  | ArgId.simple_index_file => if m.simple_index_file then none else some { m with simple_index_file := true }
  | ArgId.sdf => if m.sdf then none else some { m with sdf := true }
  | _ => none

/-- A token that is treated as an option name: it starts with a hyphen
and has at least one further character.  The lone hyphen is a plain
value, and the double hyphen is handled separately as the escape. -/
def isOptionToken (t : String) : Bool :=
  match t.toList with
  | '-' :: _ :: _ => true
  | _ => false

/-- Split a character list at the first equals sign, if any. -/
def splitAtEq : List Char → Option (List Char × List Char)
  | [] => none
  | c :: cs =>
    if c = '=' then some ([], cs)
    else
      match splitAtEq cs with
      | none => none
      | some (a, b) => some (c :: a, b)

/-- Split an option token into its name and an optional inline value
attached with an equals sign. -/
def splitEq (t : String) : String × Option String :=
  match splitAtEq t.toList with
  | none => (t, none)
  | some (n, v) => (String.mk n, some (String.mk v))

/-- Errors the argument engine can report.  invalidValue wraps a
validator failure for a named argument or a positional, and
missingRequired lists every required argument absent from the
invocation, including a dependency target demanded by requires. -/
inductive CliErr
  | invalidValue (arg : String) (e : ValErr)
  | unknownArgument (arg : String)
  | missingValue (arg : String)
  | duplicateArgument (arg : String)
  | unexpectedArgument (arg : String)
  | unexpectedValue (arg : String)
  | groupConflict (a b : String)
  | missingRequired (args : List String)
deriving DecidableEq, Repr

/-- State threaded through the token walk: matches so far, whether the
double-hyphen escape was seen, a value-taking option awaiting its
value, and the first error if one occurred. -/
structure MState where
  m : Matches
  esc : Bool
  pending : Option ArgId
  err : Option CliErr
deriving DecidableEq, Repr

/-- Initial state of the token walk. -/
def initState : MState :=
  { m := emptyMatches, esc := false, pending := none, err := none }

/-- Consume a positional token: the first fills input and runs the
directory validator on it, the second fills output unvalidated, a third
is an error. -/
def posStep (fs : Fs) (st : MState) (t : String) : MState :=
  match st.m.input with
  | none =>
    match is_dir fs t with
    | Except.ok p => { st with m := { st.m with input := some p } }
    | Except.error e => { st with err := some (CliErr.invalidValue "<INPUT>" e) }
  | some _ =>
    match st.m.output with
    | none => { st with m := { st.m with output := some t } }
    | some _ => { st with err := some (CliErr.unexpectedArgument t) }

/-- Run the validator of a value-taking argument on a supplied value and
record the result. -/
def applyVal (st : MState) (a : ArgId) (v : String) : MState :=
  match runValidator a v with
  | Except.error e => { st with err := some (CliErr.invalidValue (longName a) e) }
  | Except.ok n =>
    match setValArg st.m a n with
    | none => { st with err := some (CliErr.duplicateArgument (longName a)) }
    | some m2 => { st with m := m2 }

/-- Handle a recognized option token, with its inline value when one was
attached. -/
def applyArg (st : MState) (a : ArgId) (iv : Option String) : MState :=
  if isValueArg a then
    match iv with
    | none => { st with pending := some a }
    | some v => applyVal st a v
  else
    match iv with
    | some _ => { st with err := some (CliErr.unexpectedValue (longName a)) }
    | none =>
      match setFlagArg st.m a with
      | none => { st with err := some (CliErr.duplicateArgument (longName a)) }
      | some m2 => { st with m := m2 }

/-- Consume one token.  A state that already failed is frozen, so the
first error of the walk is the one reported. -/
def stepTok (fs : Fs) (st : MState) (t : String) : MState :=
  if st.err.isSome then st
  else
    match st.pending with
    | some a =>
      if isOptionToken t then
        { st with err := some (CliErr.missingValue (longName a)), pending := none }
      else applyVal { st with pending := none } a t
    | none =>
      if st.esc then posStep fs st t
      else if t = "--" then { st with esc := true }
      else if isOptionToken t then
        match lookupName (splitEq t).1 with
        | none => { st with err := some (CliErr.unknownArgument t) }
        | some a => applyArg st a (splitEq t).2
      else posStep fs st t

/-- Turn the final walk state into a result: a recorded error wins, a
still-pending value option is a missing value, otherwise the matches
are complete. -/
def finishMatch (st : MState) : Except CliErr Matches :=
  match st.err with
  | some e => Except.error e
  | none =>
    match st.pending with
    | some a => Except.error (CliErr.missingValue (longName a))
    | none => Except.ok st.m

/-- Walk the whole token list and return the raw matches, or the first
error encountered while consuming tokens. -/
def matchArgs (fs : Fs) (args : List String) : Except CliErr Matches :=
  finishMatch (args.foldl (stepTok fs) initState)

/-- Build the final configuration from complete matches, applying the
declared defaults ratio = 1 and spacing = 0. -/
def toCli (m : Matches) (i o : String) : Cli :=
  { input := i, output := o, ratio := m.ratio.getD 1, retina := m.retina,
    unique := m.unique, recursive := m.recursive, crop := m.crop,
    include_center := m.include_center, spacing := m.spacing.getD 0,
    oxipng := m.oxipng, zopfli := m.zopfli,
    minify_index_file := m.minify_index_file,
    simple_index_file := m.simple_index_file, sdf := m.sdf }

/-- The conflict walk: visit the matched group members in command-line
occurrence order and report the violated group of the first one whose
conflict partner is also present.  The resulting error names the two
members of that group (the layout of the two names inside the message
is not modelled). -/
def firstConflict (m : Matches) : List ArgId → Option (String × String)
  | [] => none
  | a :: rest =>
    if (a = ArgId.ratio ∨ a = ArgId.retina) ∧ m.ratio.isSome = true ∧ m.retina = true then
      some ("--ratio", "--retina")
    else if (a = ArgId.oxipng ∨ a = ArgId.zopfli) ∧ m.oxipng.isSome = true ∧ m.zopfli.isSome = true then
      some ("--oxipng", "--zopfli")
    else firstConflict m rest

/-- Cross-argument validation, run after every token was consumed:
group conflicts are checked first, reporting the conflict of the first
matched conflicting argument in command-line order, then the required
arguments, where a missing dependency target demanded by requires is
reported together with any missing positional. -/
def validate (m : Matches) : Except CliErr Cli :=
  match firstConflict m m.order with
  | some (a, b) => Except.error (CliErr.groupConflict a b)
  | none =>
    match m.input, m.output with
    | some i, some o =>
      if m.include_center && !m.crop then
        Except.error (CliErr.missingRequired ["--crop"])
      else Except.ok (toCli m i o)
    | none, some _ =>
      Except.error (CliErr.missingRequired
        (["<INPUT>"] ++ if m.include_center && !m.crop then ["--crop"] else []))
    | some _, none =>
      Except.error (CliErr.missingRequired
        (["<OUTPUT>"] ++ if m.include_center && !m.crop then ["--crop"] else []))
    | none, none =>
      Except.error (CliErr.missingRequired
        (["<INPUT>", "<OUTPUT>"] ++ if m.include_center && !m.crop then ["--crop"] else []))

/-- Parse an argument vector against the schema: consume the tokens,
then run the cross-argument checks and build the configuration. -/
def parse (fs : Fs) (args : List String) : Except CliErr Cli :=
  match matchArgs fs args with
  | Except.error e => Except.error e
  | Except.ok m => validate m

/-- Modelled from the spec: the effective pixel-ratio computation
performed by the main function of the binary, which is not under the
sources available here (only cli.rs is).  Spec: compute the effective
ratio as 2 if retina is set, else the parsed ratio value, else the
default 1; the default is already folded into the ratio field by
parsing. -/
def effective_ratio (c : Cli) : Nat :=
  if c.retina then 2 else c.ratio

/-- A small concrete filesystem for witnesses: one directory and one
regular file. -/
def sampleFs : Fs :=
  Fs.mk (fun p =>
    if p = "icons" then NodeKind.dir
    else if p = "notes.txt" then NodeKind.file
    else NodeKind.absent)

/-! Helper lemmas about the numeric validators. -/

lemma u8_digits_le {cs : List Char} {n : Nat} (h : u8_digits cs = some n) :
    n ≤ 255 := by
  unfold u8_digits at h
  cases hp : parseDigits cs 0 with
  | none => rw [hp] at h; simp at h
  | some k =>
    rw [hp] at h
    by_cases hk : k ≤ 255 <;> simp [hk] at h
    omega

lemma u8_chars_le {cs : List Char} {n : Nat} (h : u8_chars cs = some n) :
    n ≤ 255 := by
  cases cs with
  | nil => simp [u8_chars] at h
  | cons c cs =>
    simp only [u8_chars] at h
    by_cases hc : c = '+'
    · rw [if_pos hc] at h
      by_cases he : cs.isEmpty <;> simp [he] at h
      exact u8_digits_le h
    · rw [if_neg hc] at h
      exact u8_digits_le h

lemma u8_from_str_le {s : String} {n : Nat} (h : u8_from_str s = some n) :
    n ≤ 255 :=
  u8_chars_le h

lemma u8_from_str_eq_none_of_overflow {s : String} {n : Nat}
    (h : parseDigits s.toList 0 = some n) (hn : 255 < n) :
    u8_from_str s = none := by
  unfold u8_from_str
  cases hcs : s.toList with
  | nil =>
    rw [hcs] at h
    simp [parseDigits] at h
    omega
  | cons c cs =>
    rw [hcs] at h
    simp only [u8_chars]
    by_cases hc : c = '+'
    · rw [hc] at h
      simp [parseDigits, show digitVal '+' = none from by decide] at h
    · rw [if_neg hc]
      unfold u8_digits
      rw [h]
      simp
      omega

lemma is_positive_ok_iff {s : String} {n : Nat} :
    is_positive s = Except.ok n ↔ u8_from_str s = some n ∧ 0 < n := by
  cases h : u8_from_str s with
  | none => simp [is_positive, h]
  | some k =>
    by_cases hk : k > 0
    · simp only [is_positive, h, if_pos hk, Except.ok.injEq, Option.some.injEq]
      exact ⟨fun he => ⟨he, he ▸ hk⟩, fun ⟨he, _⟩ => he⟩
    · simp only [is_positive, h, if_neg hk, Option.some.injEq]
      constructor
      · intro he; exact absurd he (by simp)
      · rintro ⟨rfl, hn⟩; omega

lemma is_positive_of_none {s : String} (h : u8_from_str s = none) :
    is_positive s = Except.error ValErr.parseError := by
  simp [is_positive, h]

lemma is_positive_of_zero {s : String} (h : u8_from_str s = some 0) :
    is_positive s = Except.error ValErr.rangeError := by
  simp [is_positive, h]

lemma is_non_negative_ok_iff {s : String} {n : Nat} :
    is_non_negative s = Except.ok n ↔ u8_from_str s = some n := by
  cases h : u8_from_str s with
  | none => simp [is_non_negative, h]
  | some k => simp [is_non_negative, h]

lemma is_non_negative_of_none {s : String} (h : u8_from_str s = none) :
    is_non_negative s = Except.error ValErr.parseError := by
  simp [is_non_negative, h]

lemma is_max_6_ok_iff {s : String} {n : Nat} :
    is_max_6 s = Except.ok n ↔ u8_from_str s = some n ∧ n ≤ 6 := by
  cases h : u8_from_str s with
  | none => simp [is_max_6, h]
  | some k =>
    by_cases hk : k ≤ 6
    · simp only [is_max_6, h, if_pos hk, Except.ok.injEq, Option.some.injEq]
      exact ⟨fun he => ⟨he, he ▸ hk⟩, fun ⟨he, _⟩ => he⟩
    · simp only [is_max_6, h, if_neg hk, Option.some.injEq]
      constructor
      · intro he; exact absurd he (by simp)
      · rintro ⟨rfl, hn⟩; omega

lemma is_max_6_of_none {s : String} (h : u8_from_str s = none) :
    is_max_6 s = Except.error ValErr.parseError := by
  simp [is_max_6, h]

lemma is_max_6_of_over {s : String} {n : Nat} (h : u8_from_str s = some n)
    (hn : 6 < n) : is_max_6 s = Except.error ValErr.rangeError := by
  simp only [is_max_6, h, if_neg (by omega : ¬n ≤ 6)]

/-! Helper lemmas about cross-argument validation. -/

/-! Helper lemmas about the conflict walk and the occurrence order. -/

lemma firstConflict_none_of_no_conflict {m : Matches}
    (h1 : (m.ratio.isSome && m.retina) = false)
    (h2 : (m.oxipng.isSome && m.zopfli.isSome) = false) :
    ∀ l : List ArgId, firstConflict m l = none
  | [] => rfl
  | a :: rest => by
    unfold firstConflict
    rw [if_neg (by rintro ⟨_, hr, hret⟩; rw [hr, hret] at h1; simp at h1),
      if_neg (by rintro ⟨_, ho, hz⟩; rw [ho, hz] at h2; simp at h2)]
    exact firstConflict_none_of_no_conflict h1 h2 rest

lemma firstConflict_some_of_pixel_mem {m : Matches}
    (hr : m.ratio.isSome = true) (hret : m.retina = true) :
    ∀ l : List ArgId, ArgId.ratio ∈ l → ∃ p, firstConflict m l = some p
  | [], hmem => absurd hmem (List.not_mem_nil _)
  | a :: rest, hmem => by
    unfold firstConflict
    by_cases hpix : (a = ArgId.ratio ∨ a = ArgId.retina)
    · exact ⟨("--ratio", "--retina"), by rw [if_pos ⟨hpix, hr, hret⟩]⟩
    · rw [if_neg (fun hcond => hpix hcond.1)]
      by_cases hopt : ((a = ArgId.oxipng ∨ a = ArgId.zopfli) ∧
          m.oxipng.isSome = true ∧ m.zopfli.isSome = true)
      · exact ⟨("--oxipng", "--zopfli"), by rw [if_pos hopt]⟩
      · rw [if_neg hopt]
        refine firstConflict_some_of_pixel_mem hr hret rest ?_
        rcases List.mem_cons.mp hmem with he | he
        · exact absurd (Or.inl he.symm) hpix
        · exact he

lemma firstConflict_some_of_optlevel_mem {m : Matches}
    (ho : m.oxipng.isSome = true) (hz : m.zopfli.isSome = true) :
    ∀ l : List ArgId, ArgId.oxipng ∈ l → ∃ p, firstConflict m l = some p
  | [], hmem => absurd hmem (List.not_mem_nil _)
  | a :: rest, hmem => by
    unfold firstConflict
    by_cases hpix : ((a = ArgId.ratio ∨ a = ArgId.retina) ∧
        m.ratio.isSome = true ∧ m.retina = true)
    · exact ⟨("--ratio", "--retina"), by rw [if_pos hpix]⟩
    · rw [if_neg hpix]
      by_cases hopt : (a = ArgId.oxipng ∨ a = ArgId.zopfli)
      · exact ⟨("--oxipng", "--zopfli"), by rw [if_pos ⟨hopt, ho, hz⟩]⟩
      · rw [if_neg (fun hcond => hopt hcond.1)]
        refine firstConflict_some_of_optlevel_mem ho hz rest ?_
        rcases List.mem_cons.mp hmem with he | he
        · exact absurd (Or.inl he.symm) hopt
        · exact he

lemma firstConflict_pixel_of_no_optlevel {m : Matches}
    (hr : m.ratio.isSome = true) (hret : m.retina = true)
    (hno : (m.oxipng.isSome && m.zopfli.isSome) = false) :
    ∀ l : List ArgId, ArgId.ratio ∈ l →
      firstConflict m l = some ("--ratio", "--retina")
  | [], hmem => absurd hmem (List.not_mem_nil _)
  | a :: rest, hmem => by
    unfold firstConflict
    by_cases hpix : (a = ArgId.ratio ∨ a = ArgId.retina)
    · rw [if_pos ⟨hpix, hr, hret⟩]
    · rw [if_neg (fun hcond => hpix hcond.1),
        if_neg (by rintro ⟨_, ho2, hz2⟩; rw [ho2, hz2] at hno; simp at hno)]
      refine firstConflict_pixel_of_no_optlevel hr hret hno rest ?_
      rcases List.mem_cons.mp hmem with he | he
      · exact absurd (Or.inl he.symm) hpix
      · exact he

/-- The occurrence order contains every recorded group member. -/
def ordInv (m : Matches) : Prop :=
  (m.ratio.isSome = true → ArgId.ratio ∈ m.order) ∧
  (m.retina = true → ArgId.retina ∈ m.order) ∧
  (m.oxipng.isSome = true → ArgId.oxipng ∈ m.order) ∧
  (m.zopfli.isSome = true → ArgId.zopfli ∈ m.order)

lemma no_pixel_of_firstConflict_none {m : Matches}
    (hfc : firstConflict m m.order = none) (hinv : ordInv m) :
    (m.ratio.isSome && m.retina) = false := by
  cases hr : m.ratio.isSome with
  | false => rfl
  | true =>
    cases hret : m.retina with
    | false => simp
    | true =>
      exfalso
      obtain ⟨p, hp⟩ := firstConflict_some_of_pixel_mem hr hret m.order (hinv.1 hr)
      rw [hp] at hfc
      exact absurd hfc (by simp)

lemma no_optlevel_of_firstConflict_none {m : Matches}
    (hfc : firstConflict m m.order = none) (hinv : ordInv m) :
    (m.oxipng.isSome && m.zopfli.isSome) = false := by
  cases ho : m.oxipng.isSome with
  | false => rfl
  | true =>
    cases hz : m.zopfli.isSome with
    | false => simp
    | true =>
      exfalso
      obtain ⟨p, hp⟩ := firstConflict_some_of_optlevel_mem ho hz m.order (hinv.2.2.1 ho)
      rw [hp] at hfc
      exact absurd hfc (by simp)

lemma validate_ok_elim {m : Matches} {c : Cli} (h : validate m = Except.ok c) :
    firstConflict m m.order = none ∧
    (m.include_center && !m.crop) = false ∧
    m.input = some c.input ∧ m.output = some c.output ∧
    c.ratio = m.ratio.getD 1 ∧ c.retina = m.retina ∧
    c.spacing = m.spacing.getD 0 ∧
    c.oxipng = m.oxipng ∧ c.zopfli = m.zopfli ∧
    c.crop = m.crop ∧ c.include_center = m.include_center := by
  unfold validate at h
  split at h
  · exact absurd h (by simp)
  · rename_i hfc
    split at h
    · split at h
      · exact absurd h (by simp)
      · cases h
        simp_all [toCli]
    · exact absurd h (by simp)
    · exact absurd h (by simp)
    · exact absurd h (by simp)

lemma validate_ok_intro {m : Matches} {i o : String}
    (h1 : (m.ratio.isSome && m.retina) = false)
    (h2 : (m.oxipng.isSome && m.zopfli.isSome) = false)
    (h3 : (m.include_center && !m.crop) = false)
    (hi : m.input = some i) (ho : m.output = some o) :
    validate m = Except.ok (toCli m i o) := by
  unfold validate
  rw [firstConflict_none_of_no_conflict h1 h2 m.order, hi, ho]
  simp [h3]

lemma finishMatch_ok {st : MState} {m : Matches}
    (h : finishMatch st = Except.ok m) : m = st.m := by
  unfold finishMatch at h
  split at h
  · exact absurd h (by simp)
  · split at h
    · exact absurd h (by simp)
    · cases h; rfl

lemma parse_eq_validate {fs : Fs} {args : List String} {m : Matches}
    (h : matchArgs fs args = Except.ok m) : parse fs args = validate m := by
  unfold parse
  rw [h]

lemma parse_ok_elim {fs : Fs} {args : List String} {c : Cli}
    (h : parse fs args = Except.ok c) :
    ∃ m, matchArgs fs args = Except.ok m ∧ validate m = Except.ok c := by
  unfold parse at h
  split at h
  · exact absurd h (by simp)
  · rename_i m heq
    exact ⟨m, heq, h⟩

/-! Invariant: the oxipng match can only ever hold a value accepted by
is_max_6, hence a value at most 6. -/

lemma setValArg_oxipng {m : Matches} {a : ArgId} {n : Nat} {m2 : Matches}
    (h : setValArg m a n = some m2) :
    m2.oxipng = m.oxipng ∨ (a = ArgId.oxipng ∧ m2.oxipng = some n) := by
  cases a <;> simp only [setValArg] at h
  case ratio =>
    split at h
    · simp at h
    · exact Or.inl (by cases h; rfl)
  case spacing =>
    split at h
    · simp at h
    · exact Or.inl (by cases h; rfl)
  case oxipng =>
    split at h
    · simp at h
    · exact Or.inr ⟨rfl, by cases h; rfl⟩
  case zopfli =>
    split at h
    · simp at h
    · exact Or.inl (by cases h; rfl)
  all_goals simp at h

lemma setFlagArg_oxipng {m : Matches} {a : ArgId} {m2 : Matches}
    (h : setFlagArg m a = some m2) : m2.oxipng = m.oxipng := by
  cases a <;> simp only [setFlagArg] at h <;>
    first
      | (split at h
         · simp at h
         · cases h; rfl)
      | simp at h

lemma posStep_m_oxipng (fs : Fs) (st : MState) (t : String) :
    (posStep fs st t).m.oxipng = st.m.oxipng := by
  unfold posStep
  split
  · split <;> rfl
  · split <;> rfl

lemma applyVal_oxipng {st : MState} {a : ArgId} {v : String}
    (h : ∀ w, st.m.oxipng = some w → w ≤ 6) :
    ∀ w, (applyVal st a v).m.oxipng = some w → w ≤ 6 := by
  intro w hw
  unfold applyVal at hw
  split at hw
  · exact h w hw
  · rename_i n heq
    split at hw
    · exact h w hw
    · rename_i m2 hsv
      rcases setValArg_oxipng hsv with hsame | ⟨ha, hset⟩
      · refine h w ?_
        rw [← hsame]
        exact hw
      · rw [ha] at heq
        have h6 : n ≤ 6 := (is_max_6_ok_iff.mp heq).2
        have : m2.oxipng = some w := hw
        rw [hset] at this
        cases this
        exact h6

lemma applyArg_oxipng {st : MState} {a : ArgId} {iv : Option String}
    (h : ∀ w, st.m.oxipng = some w → w ≤ 6) :
    ∀ w, (applyArg st a iv).m.oxipng = some w → w ≤ 6 := by
  unfold applyArg
  split
  · cases iv with
    | none => exact h
    | some v => exact applyVal_oxipng h
  · cases iv with
    | some v => exact h
    | none =>
      intro w hw
      cases hsf : setFlagArg st.m a with
      | none =>
        rw [hsf] at hw
        exact h w hw
      | some m2 =>
        rw [hsf] at hw
        have hw2 : m2.oxipng = some w := hw
        rw [setFlagArg_oxipng hsf] at hw2
        exact h w hw2

lemma stepTok_oxipng (fs : Fs) (st : MState) (t : String)
    (h : ∀ w, st.m.oxipng = some w → w ≤ 6) :
    ∀ w, (stepTok fs st t).m.oxipng = some w → w ≤ 6 := by
  unfold stepTok
  split
  · exact h
  · split
    · split
      · exact h
      · exact applyVal_oxipng h
    · split
      · intro w hw
        rw [posStep_m_oxipng] at hw
        exact h w hw
      · split
        · exact h
        · split
          · split
            · exact h
            · exact applyArg_oxipng h
          · intro w hw
            rw [posStep_m_oxipng] at hw
            exact h w hw

lemma foldl_stepTok_oxipng (fs : Fs) :
    ∀ (l : List String) (st : MState),
      (∀ w, st.m.oxipng = some w → w ≤ 6) →
      ∀ w, (l.foldl (stepTok fs) st).m.oxipng = some w → w ≤ 6
  | [], _, h => h
  | t :: l, st, h =>
    foldl_stepTok_oxipng fs l (stepTok fs st t) (stepTok_oxipng fs st t h)

lemma matchArgs_oxipng_le {fs : Fs} {args : List String} {m : Matches}
    (h : matchArgs fs args = Except.ok m) :
    ∀ w, m.oxipng = some w → w ≤ 6 := by
  unfold matchArgs at h
  rw [finishMatch_ok h]
  exact foldl_stepTok_oxipng fs args initState
    (by intro w hw; simp [initState, emptyMatches] at hw)

/-! Invariant: the occurrence order contains every recorded group
member, so the conflict walk cannot miss a violated group. -/

lemma ordInv_empty : ordInv emptyMatches := by
  refine ⟨?_, ?_, ?_, ?_⟩ <;> intro h <;> simp [emptyMatches] at h

lemma setValArg_ordInv {m : Matches} {a : ArgId} {n : Nat} {m2 : Matches}
    (hinv : ordInv m) (h : setValArg m a n = some m2) : ordInv m2 := by
  cases a <;> simp only [setValArg] at h
  case ratio =>
    split at h
    · simp at h
    · cases h
      exact ⟨fun _ => List.mem_append_right _ (by simp),
        fun hh => List.mem_append_left _ (hinv.2.1 hh),
        fun hh => List.mem_append_left _ (hinv.2.2.1 hh),
        fun hh => List.mem_append_left _ (hinv.2.2.2 hh)⟩
  case spacing =>
    split at h
    · simp at h
    · cases h
      exact hinv
  case oxipng =>
    split at h
    · simp at h
    · cases h
      exact ⟨fun hh => List.mem_append_left _ (hinv.1 hh),
        fun hh => List.mem_append_left _ (hinv.2.1 hh),
        fun _ => List.mem_append_right _ (by simp),
        fun hh => List.mem_append_left _ (hinv.2.2.2 hh)⟩
  case zopfli =>
    split at h
    · simp at h
    · cases h
      exact ⟨fun hh => List.mem_append_left _ (hinv.1 hh),
        fun hh => List.mem_append_left _ (hinv.2.1 hh),
        fun hh => List.mem_append_left _ (hinv.2.2.1 hh),
        fun _ => List.mem_append_right _ (by simp)⟩
  all_goals simp at h

lemma setFlagArg_ordInv {m : Matches} {a : ArgId} {m2 : Matches}
    (hinv : ordInv m) (h : setFlagArg m a = some m2) : ordInv m2 := by
  cases a <;> simp only [setFlagArg] at h
  case retina =>
    split at h
    · simp at h
    · cases h
      exact ⟨fun hh => List.mem_append_left _ (hinv.1 hh),
        fun _ => List.mem_append_right _ (by simp),
        fun hh => List.mem_append_left _ (hinv.2.2.1 hh),
        fun hh => List.mem_append_left _ (hinv.2.2.2 hh)⟩
  all_goals
    first
      | (split at h <;> first | (cases h; exact hinv) | cases h)
      | simp at h

lemma posStep_ordInv (fs : Fs) (st : MState) (t : String)
    (hinv : ordInv st.m) : ordInv (posStep fs st t).m := by
  unfold posStep
  split
  · split
    · exact hinv
    · exact hinv
  · split
    · exact hinv
    · exact hinv

lemma applyVal_ordInv {st : MState} {a : ArgId} {v : String}
    (hinv : ordInv st.m) : ordInv (applyVal st a v).m := by
  unfold applyVal
  split
  · exact hinv
  · rename_i n heq
    cases hsv : setValArg st.m a n with
    | none => exact hinv
    | some m2 => exact setValArg_ordInv hinv hsv

lemma applyArg_ordInv {st : MState} {a : ArgId} {iv : Option String}
    (hinv : ordInv st.m) : ordInv (applyArg st a iv).m := by
  unfold applyArg
  split
  · cases iv with
    | none => exact hinv
    | some v => exact applyVal_ordInv hinv
  · cases iv with
    | some v => exact hinv
    | none =>
      cases hsf : setFlagArg st.m a with
      | none => exact hinv
      | some m2 => exact setFlagArg_ordInv hinv hsf

lemma stepTok_ordInv (fs : Fs) (st : MState) (t : String)
    (hinv : ordInv st.m) : ordInv (stepTok fs st t).m := by
  unfold stepTok
  split
  · exact hinv
  · split
    · split
      · exact hinv
      · exact applyVal_ordInv hinv
    · split
      · exact posStep_ordInv fs st t hinv
      · split
        · exact hinv
        · split
          · split
            · exact hinv
            · exact applyArg_ordInv hinv
          · exact posStep_ordInv fs st t hinv

lemma foldl_stepTok_ordInv (fs : Fs) :
    ∀ (l : List String) (st : MState), ordInv st.m →
      ordInv (l.foldl (stepTok fs) st).m
  | [], _, hinv => hinv
  | t :: l, st, hinv =>
    foldl_stepTok_ordInv fs l (stepTok fs st t) (stepTok_ordInv fs st t hinv)

lemma matchArgs_ordInv {fs : Fs} {args : List String} {m : Matches}
    (h : matchArgs fs args = Except.ok m) : ordInv m := by
  unfold matchArgs at h
  rw [finishMatch_ok h]
  exact foldl_stepTok_ordInv fs args initState ordInv_empty

/-! Claim theorems. -/

/-- C1 counterexample: when --ratio is supplied with a value its
validator rejects, the parse fails with the value error, not with the
group conflict, even though --retina is also supplied; so the claim
read over arbitrary ratio values is false. -/
theorem c1_counterexample :
    parse sampleFs ["icons", "out.png", "--ratio", "abc", "--retina"]
      = Except.error (CliErr.invalidValue "--ratio" ValErr.parseError) ∧
    parse sampleFs ["icons", "out.png", "--ratio", "abc", "--retina"]
      ≠ Except.error (CliErr.groupConflict "--ratio" "--retina") := by
  have h1 : parse sampleFs ["icons", "out.png", "--ratio", "abc", "--retina"]
      = Except.error (CliErr.invalidValue "--ratio" ValErr.parseError) := rfl
  refine ⟨h1, ?_⟩
  rw [h1]
  simp

/-- C1 (amended): for every argument vector whose token walk succeeds
(every supplied value individually valid) with both ratio and retina
recorded, in either order, the parse fails with a GroupConflictError
and never produces a configuration; the error names both flags of the
pixel-ratio group whenever the other mutually exclusive pair (oxipng
with zopfli) is not also fully supplied — when it is, the program
reports whichever conflicting argument was matched first in
command-line order, which may name the other group instead. -/
theorem c1_ratio_retina_conflict :
    ∀ (fs : Fs) (args : List String) (m : Matches),
      matchArgs fs args = Except.ok m →
      m.ratio.isSome = true → m.retina = true →
      (∃ a b, parse fs args = Except.error (CliErr.groupConflict a b)) ∧
      ((m.oxipng.isSome && m.zopfli.isSome) = false →
        parse fs args = Except.error (CliErr.groupConflict "--ratio" "--retina")) ∧
      ∀ c : Cli, parse fs args ≠ Except.ok c := by
  intro fs args m h hr hret
  have hp := parse_eq_validate h
  have hmem : ArgId.ratio ∈ m.order := (matchArgs_ordInv h).1 hr
  obtain ⟨⟨p1, p2⟩, hfc⟩ := firstConflict_some_of_pixel_mem hr hret m.order hmem
  refine ⟨?_, ?_, ?_⟩
  · refine ⟨p1, p2, ?_⟩
    rw [hp]
    unfold validate
    rw [hfc]
  · intro hno
    rw [hp]
    unfold validate
    rw [firstConflict_pixel_of_no_optlevel hr hret hno m.order hmem]
  · intro c hc
    rw [hp] at hc
    unfold validate at hc
    rw [hfc] at hc
    exact absurd hc (by simp)

/-- C1 witness: a concrete conflicting invocation, exercising both the
existential failure and the exact pair naming. -/
theorem c1_witness :
    parse sampleFs ["icons", "out.png", "--ratio", "3", "--retina"]
      = Except.error (CliErr.groupConflict "--ratio" "--retina") :=
  (c1_ratio_retina_conflict sampleFs ["icons", "out.png", "--ratio", "3", "--retina"]
    { emptyMatches with
      input := some "icons"
      output := some "out.png"
      ratio := some 3
      retina := true
      order := [ArgId.ratio, ArgId.retina] } rfl rfl rfl).2.1 rfl

/-- C2: for every successfully parsed configuration, the effective
pixel ratio is 2 when retina was supplied, else the explicitly supplied
ratio value, else the default 1; in particular retina alone gives an
effective ratio of 2. -/
theorem c2_effective_ratio :
    ∀ (fs : Fs) (args : List String) (m : Matches) (c : Cli),
      matchArgs fs args = Except.ok m → parse fs args = Except.ok c →
      (m.retina = true → effective_ratio c = 2) ∧
      (∀ n, m.ratio = some n → effective_ratio c = n) ∧
      (m.retina = false → m.ratio = none → effective_ratio c = 1) := by
  intro fs args m c hm hp
  rw [parse_eq_validate hm] at hp
  obtain ⟨hfc, _, _, _, hr, hret, _, _, _, _, _⟩ := validate_ok_elim hp
  have h1 : (m.ratio.isSome && m.retina) = false :=
    no_pixel_of_firstConflict_none hfc (matchArgs_ordInv hm)
  refine ⟨?_, ?_, ?_⟩
  · intro hret2
    unfold effective_ratio
    rw [hret, hret2]
    simp
  · intro n hn
    have hret2 : m.retina = false := by
      cases hret3 : m.retina
      · rfl
      · rw [hn, hret3] at h1
        simp at h1
    unfold effective_ratio
    rw [hret, hret2, hr, hn]
    simp
  · intro hret2 hn
    unfold effective_ratio
    rw [hret, hret2, hr, hn]
    simp

/-- C2 witness: parsing with retina and no ratio yields effective
ratio 2 on a concrete invocation. -/
theorem c2_witness :
    effective_ratio (toCli { emptyMatches with
      input := some "icons"
      output := some "out.png"
      retina := true } "icons" "out.png") = 2 :=
  (c2_effective_ratio sampleFs ["icons", "out.png", "--retina"]
    { emptyMatches with
      input := some "icons"
      output := some "out.png"
      retina := true
      order := [ArgId.retina] }
    (toCli { emptyMatches with
      input := some "icons"
      output := some "out.png"
      retina := true } "icons" "out.png") rfl rfl).1 rfl

/-- C3 counterexample: the string 256 denotes a value strictly greater
than zero and is numeric, yet the positive-integer validator rejects it
(u8 overflow surfaces as a parse failure), so the claim that every
N greater than 0 succeeds is false. -/
theorem c3_counterexample :
    is_positive "256" = Except.error ValErr.parseError ∧
    is_positive "256" ≠ Except.ok 256 := by
  have h1 : is_positive "256" = Except.error ValErr.parseError := rfl
  refine ⟨h1, ?_⟩
  rw [h1]
  simp

/-- C3 (amended): the positive-integer validator accepts exactly the
strings that parse as an eight-bit unsigned integer strictly greater
than zero; a string that does not parse as a u8 (non-numeric or over
255) fails with a ParseError, a parsed zero fails with a RangeError,
and the validator shared by --zopfli rejects 0 and accepts 1. -/
theorem c3_is_positive :
    ∀ (s : String) (n : Nat),
      (is_positive s = Except.ok n ↔ u8_from_str s = some n ∧ 0 < n) ∧
      (u8_from_str s = none → is_positive s = Except.error ValErr.parseError) ∧
      (u8_from_str s = some 0 → is_positive s = Except.error ValErr.rangeError) ∧
      is_positive "0" = Except.error ValErr.rangeError ∧
      is_positive "1" = Except.ok 1 := by
  intro s n
  exact ⟨is_positive_ok_iff, is_positive_of_none, is_positive_of_zero, rfl, rfl⟩

/-- C3 witness: concrete instances of the amended statement. -/
theorem c3_witness :
    is_positive "abc" = Except.error ValErr.parseError ∧
    is_positive "3" = Except.ok 3 :=
  ⟨(c3_is_positive "abc" 0).2.1 rfl,
   ((c3_is_positive "3" 3).1).mpr ⟨rfl, by omega⟩⟩

/-- C4 counterexample: with oxipng and zopfli both supplied with
individually valid values but a third option carrying an invalid value,
the parse fails with that value error rather than the group conflict,
so the claim quantified over arbitrary argument vectors is false. -/
theorem c4_counterexample :
    parse sampleFs ["icons", "out.png", "--oxipng", "2", "--zopfli", "5", "--ratio", "abc"]
      = Except.error (CliErr.invalidValue "--ratio" ValErr.parseError) ∧
    parse sampleFs ["icons", "out.png", "--oxipng", "2", "--zopfli", "5", "--ratio", "abc"]
      ≠ Except.error (CliErr.groupConflict "--oxipng" "--zopfli") := by
  have h1 : parse sampleFs
      ["icons", "out.png", "--oxipng", "2", "--zopfli", "5", "--ratio", "abc"]
      = Except.error (CliErr.invalidValue "--ratio" ValErr.parseError) := rfl
  refine ⟨h1, ?_⟩
  rw [h1]
  simp

/-- C4 (amended): for every argument vector whose token walk succeeds
with both oxipng and zopfli recorded, the parse fails with a
GroupConflictError; and every successfully produced configuration has
at most one of the two optimization levels set. -/
theorem c4_optlevel_conflict :
    (∀ (fs : Fs) (args : List String) (m : Matches),
      matchArgs fs args = Except.ok m →
      m.oxipng.isSome = true → m.zopfli.isSome = true →
      ∃ a b, parse fs args = Except.error (CliErr.groupConflict a b)) ∧
    (∀ (fs : Fs) (args : List String) (c : Cli),
      parse fs args = Except.ok c →
      ¬(c.oxipng.isSome = true ∧ c.zopfli.isSome = true)) := by
  constructor
  · intro fs args m hm ho hz
    have hmem : ArgId.oxipng ∈ m.order := (matchArgs_ordInv hm).2.2.1 ho
    obtain ⟨⟨p1, p2⟩, hfc⟩ := firstConflict_some_of_optlevel_mem ho hz m.order hmem
    refine ⟨p1, p2, ?_⟩
    rw [parse_eq_validate hm]
    unfold validate
    rw [hfc]
  · rintro fs args c hc ⟨ho, hz⟩
    obtain ⟨m, hm, hv⟩ := parse_ok_elim hc
    obtain ⟨hfc, _, _, _, _, _, _, hox, hzo, _, _⟩ := validate_ok_elim hv
    have h2 : (m.oxipng.isSome && m.zopfli.isSome) = false :=
      no_optlevel_of_firstConflict_none hfc (matchArgs_ordInv hm)
    rw [hox] at ho
    rw [hzo] at hz
    rw [ho, hz] at h2
    simp at h2

/-- C4 witness: a concrete invocation supplying both optimization
options. -/
theorem c4_witness :
    ∃ a b, parse sampleFs ["icons", "out.png", "--oxipng", "2", "--zopfli", "5"]
      = Except.error (CliErr.groupConflict a b) :=
  c4_optlevel_conflict.1 sampleFs ["icons", "out.png", "--oxipng", "2", "--zopfli", "5"]
    { emptyMatches with
      input := some "icons"
      output := some "out.png"
      oxipng := some 2
      zopfli := some 5
      order := [ArgId.oxipng, ArgId.zopfli] } rfl rfl rfl

/-- C5 counterexample: an argument vector containing --include-center
without --crop but also both members of the pixel-ratio group fails
with the group conflict, which is checked before required arguments,
not with the dependency failure the claim promises for every such
vector. -/
theorem c5_counterexample :
    parse sampleFs ["icons", "out.png", "--include-center", "--ratio", "3", "--retina"]
      = Except.error (CliErr.groupConflict "--ratio" "--retina") ∧
    parse sampleFs ["icons", "out.png", "--include-center", "--ratio", "3", "--retina"]
      ≠ Except.error (CliErr.missingRequired ["--crop"]) := by
  have h1 : parse sampleFs
      ["icons", "out.png", "--include-center", "--ratio", "3", "--retina"]
      = Except.error (CliErr.groupConflict "--ratio" "--retina") := rfl
  refine ⟨h1, ?_⟩
  rw [h1]
  simp

/-- C5 (amended): on argument vectors whose token walk succeeds, with
no mutually exclusive pair supplied and both positionals present,
include_center without crop fails with the dependency error naming
crop; include_center with crop succeeds; and every successfully
produced configuration satisfies include_center implies crop. -/
theorem c5_include_center_requires_crop :
    (∀ (fs : Fs) (args : List String) (m : Matches) (i o : String),
      matchArgs fs args = Except.ok m →
      m.include_center = true → m.crop = false →
      (m.ratio.isSome && m.retina) = false →
      (m.oxipng.isSome && m.zopfli.isSome) = false →
      m.input = some i → m.output = some o →
      parse fs args = Except.error (CliErr.missingRequired ["--crop"])) ∧
    (∀ (fs : Fs) (args : List String) (m : Matches) (i o : String),
      matchArgs fs args = Except.ok m →
      m.include_center = true → m.crop = true →
      (m.ratio.isSome && m.retina) = false →
      (m.oxipng.isSome && m.zopfli.isSome) = false →
      m.input = some i → m.output = some o →
      parse fs args = Except.ok (toCli m i o)) ∧
    (∀ (fs : Fs) (args : List String) (c : Cli),
      parse fs args = Except.ok c →
      c.include_center = true → c.crop = true) := by
  refine ⟨?_, ?_, ?_⟩
  · intro fs args m i o hm hic hcr h1 h2 hi ho
    rw [parse_eq_validate hm]
    unfold validate
    rw [firstConflict_none_of_no_conflict h1 h2 m.order, hi, ho]
    simp [hic, hcr]
  · intro fs args m i o hm hic hcr h1 h2 hi ho
    rw [parse_eq_validate hm]
    exact validate_ok_intro h1 h2 (by rw [hic, hcr]; rfl) hi ho
  · intro fs args c hc hic
    obtain ⟨m, _, hv⟩ := parse_ok_elim hc
    obtain ⟨_, h3, _, _, _, _, _, _, _, hcrop, hicm⟩ := validate_ok_elim hv
    rw [hicm] at hic
    rw [hic] at h3
    rw [hcrop]
    cases hmc : m.crop
    · rw [hmc] at h3
      simp at h3
    · rfl

/-- C5 witness: concrete invocations for the dependency failure and
the success case. -/
theorem c5_witness :
    parse sampleFs ["icons", "out.png", "--include-center"]
      = Except.error (CliErr.missingRequired ["--crop"]) ∧
    parse sampleFs ["icons", "out.png", "--include-center", "--crop"]
      = Except.ok (toCli { emptyMatches with
          input := some "icons"
          output := some "out.png"
          include_center := true
          crop := true } "icons" "out.png") :=
  ⟨c5_include_center_requires_crop.1 sampleFs ["icons", "out.png", "--include-center"]
      { emptyMatches with
        input := some "icons"
        output := some "out.png"
        include_center := true } "icons" "out.png" rfl rfl rfl rfl rfl rfl rfl,
   c5_include_center_requires_crop.2.1 sampleFs
      ["icons", "out.png", "--include-center", "--crop"]
      { emptyMatches with
        input := some "icons"
        output := some "out.png"
        include_center := true
        crop := true } "icons" "out.png" rfl rfl rfl rfl rfl rfl rfl⟩

/-- C6: the oxipng validator accepts exactly the strings parsing as an
unsigned eight-bit integer at most 6; the string 6 succeeds, 7 fails
with a RangeError, and every successfully produced configuration with
an oxipng level set has it at most 6. -/
theorem c6_is_max_6 :
    ∀ (s : String) (n : Nat),
      (is_max_6 s = Except.ok n ↔ u8_from_str s = some n ∧ n ≤ 6) ∧
      is_max_6 "6" = Except.ok 6 ∧
      is_max_6 "7" = Except.error ValErr.rangeError ∧
      (∀ (fs : Fs) (args : List String) (c : Cli) (v : Nat),
        parse fs args = Except.ok c → c.oxipng = some v → v ≤ 6) := by
  intro s n
  refine ⟨is_max_6_ok_iff, rfl, rfl, ?_⟩
  intro fs args c v hc hv
  obtain ⟨m, hm, hval⟩ := parse_ok_elim hc
  obtain ⟨_, _, _, _, _, _, _, hox, _, _, _⟩ := validate_ok_elim hval
  rw [hox] at hv
  exact matchArgs_oxipng_le hm v hv

/-- C6 witness: concrete instances, including the configuration bound
at a concrete parse. -/
theorem c6_witness :
    is_max_6 "6" = Except.ok 6 ∧ (3 : Nat) ≤ 6 :=
  ⟨(c6_is_max_6 "6" 6).2.1,
   (c6_is_max_6 "6" 6).2.2.2 sampleFs ["icons", "out.png", "--oxipng", "3"]
     (toCli { emptyMatches with
       input := some "icons"
       output := some "out.png"
       oxipng := some 3 } "icons" "out.png") 3 rfl rfl⟩

/-- C7: the directory-existence validator succeeds exactly on paths the
filesystem maps to a directory at validation time; a path naming a
regular file fails with a PathError, and so does an absent path. -/
theorem c7_is_dir :
    ∀ (fs : Fs) (p : String),
      ((∃ v, is_dir fs p = Except.ok v) ↔ fs.kind p = NodeKind.dir) ∧
      (fs.kind p = NodeKind.file → is_dir fs p = Except.error ValErr.pathError) ∧
      (fs.kind p = NodeKind.absent → is_dir fs p = Except.error ValErr.pathError) := by
  intro fs p
  by_cases h : fs.kind p = NodeKind.dir
  · refine ⟨⟨fun _ => h, fun _ => ⟨p, by unfold is_dir; rw [if_pos h]⟩⟩, ?_, ?_⟩
    · intro hf
      rw [hf] at h
      exact absurd h (by simp)
    · intro hf
      rw [hf] at h
      exact absurd h (by simp)
  · have he : is_dir fs p = Except.error ValErr.pathError := by
      unfold is_dir
      rw [if_neg h]
    refine ⟨⟨?_, fun hd => absurd hd h⟩, fun _ => he, fun _ => he⟩
    rintro ⟨v, hv⟩
    rw [he] at hv
    exact absurd hv (by simp)

/-- C7 witness: concrete directory, file and absent paths. -/
theorem c7_witness :
    (∃ v, is_dir sampleFs "icons" = Except.ok v) ∧
    is_dir sampleFs "notes.txt" = Except.error ValErr.pathError ∧
    is_dir sampleFs "nope" = Except.error ValErr.pathError :=
  ⟨(c7_is_dir sampleFs "icons").1.mpr rfl,
   (c7_is_dir sampleFs "notes.txt").2.1 rfl,
   (c7_is_dir sampleFs "nope").2.2 rfl⟩

/-- C8 counterexample: the string 300 is numeric (a pure digit run with
value 300), yet the spacing validator rejects it because it does not
fit in a u8; so the validator does not accept every numeric string and
does not reject only non-numeric ones. -/
theorem c8_counterexample :
    parseDigits "300".toList 0 = some 300 ∧
    is_non_negative "300" = Except.error ValErr.parseError ∧
    is_non_negative "300" ≠ Except.ok 300 := by
  have h1 : is_non_negative "300" = Except.error ValErr.parseError := rfl
  refine ⟨rfl, h1, ?_⟩
  rw [h1]
  simp

/-- C8 (amended): the spacing validator accepts exactly the strings
that parse as an eight-bit unsigned integer, succeeding with that
value; it rejects with a ParseError exactly the strings that do not
(non-numeric strings, and numeric strings whose value exceeds 255),
and every accepted value is at most 255. -/
theorem c8_is_non_negative :
    ∀ (s : String) (n : Nat),
      (is_non_negative s = Except.ok n ↔ u8_from_str s = some n) ∧
      (u8_from_str s = none → is_non_negative s = Except.error ValErr.parseError) ∧
      (∀ k, is_non_negative s = Except.ok k → k ≤ 255) := by
  intro s n
  refine ⟨is_non_negative_ok_iff, is_non_negative_of_none, ?_⟩
  intro k hk
  exact u8_from_str_le (is_non_negative_ok_iff.mp hk)

/-- C8 witness: concrete accepted and rejected spacing values. -/
theorem c8_witness :
    is_non_negative "5" = Except.ok 5 ∧
    is_non_negative "abc" = Except.error ValErr.parseError :=
  ⟨(c8_is_non_negative "5" 5).1.mpr rfl,
   (c8_is_non_negative "abc" 0).2.1 rfl⟩

/-- C9: the minimal invocation, an existing directory and an output
name, succeeds and produces exactly the default configuration. -/
theorem c9_minimal_defaults :
    ∀ (fs : Fs) (d o : String),
      fs.kind d = NodeKind.dir →
      isOptionToken d = false → isOptionToken o = false →
      parse fs [d, o] = Except.ok
        { input := d, output := o, ratio := 1, retina := false,
          unique := false, recursive := false, crop := false,
          include_center := false, spacing := 0, oxipng := none,
          zopfli := none, minify_index_file := false,
          simple_index_file := false, sdf := false } := by
  intro fs d o hd hdo hoo
  have hd2 : d ≠ "--" := by
    intro h
    rw [h] at hdo
    exact absurd hdo (by decide)
  have ho2 : o ≠ "--" := by
    intro h
    rw [h] at hoo
    exact absurd hoo (by decide)
  simp [parse, matchArgs, finishMatch, List.foldl, stepTok, initState,
    emptyMatches, posStep, is_dir, validate, firstConflict, toCli,
    hd, hd2, ho2, hdo, hoo]

/-- C9 witness: the minimal invocation on the concrete filesystem. -/
theorem c9_witness :
    parse sampleFs ["icons", "out.png"] = Except.ok
      { input := "icons", output := "out.png", ratio := 1, retina := false,
        unique := false, recursive := false, crop := false,
        include_center := false, spacing := 0, oxipng := none,
        zopfli := none, minify_index_file := false,
        simple_index_file := false, sdf := false } :=
  c9_minimal_defaults sampleFs "icons" "out.png" rfl (by decide) (by decide)

/-- C10: every numeric option is parsed into a u8, so every decimal
value over 255 is rejected by all three numeric validators with a
parse failure, even where the documented semantic bound would allow it
(a ratio of 256 is positive, a spacing or zopfli count of 300 is in
their documented ranges). -/
theorem c10_u8_overflow :
    ∀ (s : String) (n : Nat),
      parseDigits s.toList 0 = some n → 255 < n →
      is_positive s = Except.error ValErr.parseError ∧
      is_non_negative s = Except.error ValErr.parseError ∧
      is_max_6 s = Except.error ValErr.parseError := by
  intro s n h hn
  have hu := u8_from_str_eq_none_of_overflow h hn
  exact ⟨is_positive_of_none hu, is_non_negative_of_none hu,
    is_max_6_of_none hu⟩

/-- C10 witness: ratio 256, spacing 300 and zopfli 300 all rejected. -/
theorem c10_witness :
    is_positive "256" = Except.error ValErr.parseError ∧
    is_non_negative "300" = Except.error ValErr.parseError ∧
    is_positive "300" = Except.error ValErr.parseError :=
  ⟨(c10_u8_overflow "256" 256 rfl (by omega)).1,
   (c10_u8_overflow "300" 300 rfl (by omega)).2.1,
   (c10_u8_overflow "300" 300 rfl (by omega)).1⟩
